import Mathlib

set_option maxRecDepth 4000

/-! Verification of the authorization and coordination layer of the gemini-cli
repository: approval modes, the policy engine, the correlation bus, the
confirmation coordination protocol, and the plan-mode tools. Pure functions of
the TypeScript source are translated into Lean functions; stateful code is
translated into explicit state passing. -/

/-- Approval modes of the agent (policy/types.ts): DEFAULT, AUTO_EDIT,
PLAN_MODE and YOLO. -/
inductive ApprovalMode where
  | DEFAULT
  | AUTO_EDIT
  | PLAN_MODE
  | YOLO
  deriving DecidableEq, Repr

/-- Decisions of the policy engine (policy/config.ts): ALLOW, DENY, ASK_USER. -/
inductive PolicyDecision where
  | ALLOW
  | DENY
  | ASK_USER
  deriving DecidableEq, Repr

/-- Immutable input to the policy engine: a tool name with its arguments,
modelled as a list of key-value pairs. -/
structure ToolInvocationRequest where
  toolName : String
  args : List (String × String)

/-- Modelled from the spec: a declarative policy rule (policy-engine.ts and the
policies directory are not in the source tree; only their tests are). A rule
has a tool-name matcher (none is a wildcard), an argument predicate, the modes
it applies to (none is unscoped, applying in every mode), a decision and a
numeric rule priority. -/
structure PolicyRule where
  toolPattern : Option String
  argsPred : List (String × String) → Bool
  applicableModes : Option (List ApprovalMode)
  decision : PolicyDecision
  rulePriority : Nat

/-- Modelled from the spec: a rule applies when its mode scope contains the
given mode or when it is unscoped. -/
def ruleApplicable (r : PolicyRule) (mode : ApprovalMode) : Bool :=
  match r.applicableModes with
  | none => true
  | some ms => ms.contains mode

/-- Modelled from the spec: a rule matches an invocation when the tool-name
matcher accepts the tool name and the argument predicate accepts the
arguments. -/
def ruleMatches (r : PolicyRule) (inv : ToolInvocationRequest) : Bool :=
  (match r.toolPattern with
   | none => true
   | some n => n == inv.toolName) && r.argsPred inv.args

/-- Whether an indexed rule candidate is applicable in the mode and matches the
invocation. The index is the load order of the rule. -/
def candMatches (mode : ApprovalMode) (inv : ToolInvocationRequest)
    (c : Nat × PolicyRule) : Bool :=
  ruleApplicable c.2 mode && ruleMatches c.2 inv

/-- Precedence between indexed rules: higher priority wins, and on equal
priority the later-loaded rule (larger load index) wins. -/
def beats (c b : Nat × PolicyRule) : Prop :=
  b.2.rulePriority < c.2.rulePriority ∨
    (c.2.rulePriority = b.2.rulePriority ∧ b.1 < c.1)

instance (c b : Nat × PolicyRule) : Decidable (beats c b) := by
  unfold beats
  exact inferInstance

/-- Keep the better of the current best candidate and a new candidate. -/
def pickBetter (best : Option (Nat × PolicyRule)) (c : Nat × PolicyRule) :
    Option (Nat × PolicyRule) :=
  match best with
  | none => some c
  | some b => if beats c b then some c else some b

/-- Scan the candidates in load order, keeping the best applicable matching
candidate seen so far. -/
def bestMatchFrom (mode : ApprovalMode) (inv : ToolInvocationRequest)
    (best : Option (Nat × PolicyRule)) :
    List (Nat × PolicyRule) → Option (Nat × PolicyRule)
  | [] => best
  | c :: rest =>
      bestMatchFrom mode inv
        (if candMatches mode inv c then pickBetter best c else best) rest

/-- Select, among candidates that are applicable and match, the one of maximal
precedence. -/
def bestMatch (mode : ApprovalMode) (inv : ToolInvocationRequest)
    (cands : List (Nat × PolicyRule)) : Option (Nat × PolicyRule) :=
  bestMatchFrom mode inv none cands

/-- Pair each rule with its load index, starting at the given index. -/
def enumRulesFrom : Nat → List PolicyRule → List (Nat × PolicyRule)
  | _, [] => []
  | i, r :: rest => (i, r) :: enumRulesFrom (i + 1) rest

/-- Modelled from the spec: the policy-engine decision function
(PolicyEngine.check of policy-engine.ts, which is not in the source tree).
Among the loaded rules that are applicable in the mode and match the
invocation, the one of highest priority wins, ties broken toward later load
order, and its decision is returned; when no rule matches, the configured
default decision is returned. -/
def PolicyEngine.check (rules : List PolicyRule) (dflt : PolicyDecision)
    (mode : ApprovalMode) (inv : ToolInvocationRequest) : PolicyDecision :=
  match bestMatch mode inv (enumRulesFrom 0 rules) with
  | some c => c.2.decision
  | none => dflt

/-- Mutating tools named by the spec for plan mode: write, edit, shell and
persistent memory. -/
def mutatingToolNames : List String :=
  ["write_file", "replace", "run_shell_command", "save_memory"]

/-- Read-only tools allowed in every mode by the built-in read-only rules. -/
def readOnlyToolNames : List String :=
  ["read_file", "read_many_files", "list_directory", "glob",
   "search_file_content", "web_fetch", "google_web_search"]

/-- Modelled from the spec: an unscoped allow rule for one read-only tool. -/
def allowRule (name : String) : PolicyRule :=
  { toolPattern := some name, argsPred := fun _ => true, applicableModes := none,
    decision := PolicyDecision.ALLOW, rulePriority := 50 }

/-- Modelled from the spec: a plan-mode deny rule for one mutating tool. -/
def planDenyRule (name : String) : PolicyRule :=
  { toolPattern := some name, argsPred := fun _ => true,
    applicableModes := some [ApprovalMode.PLAN_MODE],
    decision := PolicyDecision.DENY, rulePriority := 100 }

/-- Modelled from the spec: the plan-mode allow rule for the single mode-exit
tool. -/
def exitPlanAllowRule : PolicyRule :=
  { toolPattern := some "exit_plan_mode", argsPred := fun _ => true,
    applicableModes := some [ApprovalMode.PLAN_MODE],
    decision := PolicyDecision.ALLOW, rulePriority := 100 }

/-- Modelled from the spec: the built-in rule set of the policies directory, in
load order: unscoped read-only allows, then the plan-mode denies for mutating
tools, then the plan-mode allow for the mode-exit tool. The engine default is
ASK_USER. -/
def builtinRules : List PolicyRule :=
  readOnlyToolNames.map allowRule ++ mutatingToolNames.map planDenyRule
    ++ [exitPlanAllowRule]





/-- Tagged outcome of a confirmation: success with the answer payload,
cancelled, or timed out. -/
inductive ConfirmationOutcome where
  | success (answers : List (String × String))
  | cancelled
  | timedOut
  deriving DecidableEq, Repr

/-- A message published on the correlation bus, reduced to its kind and its
correlation identifier. -/
structure BusMessage where
  kind : String
  correlationId : String
  deriving DecidableEq, Repr

/-- Modelled from the spec: the state of one confirmation-coordinator instance
(the coordinator of ask-user.ts is not in the source tree; only its tests
are). It records the correlation id of the published request, whether the
response subscriber is still registered, whether the timeout timer is still
armed, the resolved outcome if any, and a log of every message the
coordinator itself published on the bus. -/
structure CoordState where
  requestId : String
  subscriberRegistered : Bool
  timerArmed : Bool
  outcome : Option ConfirmationOutcome
  publishedLog : List BusMessage
  deriving DecidableEq, Repr

/-- Events that can reach a pending coordinator: a published response carrying
a correlation id and answers, the caller-supplied cancellation signal firing,
or the timeout elapsing. -/
inductive CoordEvent where
  | response (correlationId : String) (answers : List (String × String))
  | cancel
  | timeout
  deriving DecidableEq, Repr

/-- Modelled from the spec: starting a confirmation publishes exactly one
correlated request on the bus, registers the response subscriber and arms the
timer; nothing is resolved yet. -/
def startCoordination (requestKind : String) (cid : String) : CoordState :=
  { requestId := cid
    subscriberRegistered := true
    timerArmed := true
    outcome := none
    publishedLog := [{ kind := requestKind, correlationId := cid }] }

/-- Resolve a coordinator with the given outcome: record the outcome,
unregister the subscriber and clear the timer; the publication log is left
unchanged. -/
def CoordState.resolve (s : CoordState) (o : ConfirmationOutcome) : CoordState :=
  { s with outcome := some o, subscriberRegistered := false, timerArmed := false }

/-- Modelled from the spec: one event reaching the coordinator. A coordinator
that has already resolved ignores every event (its handler was removed and its
timer cleared). A pending coordinator resolves success on a response whose
correlation id matches its request while its subscriber is registered, ignores
any other response, resolves cancelled on the cancellation signal and timedOut
on the timeout; it never publishes anything while doing so. -/
def CoordState.step (s : CoordState) (e : CoordEvent) : CoordState :=
  match s.outcome with
  | some _ => s
  | none =>
    match e with
    | CoordEvent.response cid ans =>
        if s.subscriberRegistered && (cid == s.requestId) then
          s.resolve (ConfirmationOutcome.success ans)
        else s
    | CoordEvent.cancel => s.resolve ConfirmationOutcome.cancelled
    | CoordEvent.timeout => s.resolve ConfirmationOutcome.timedOut

/-- Run a coordinator through a sequence of events, in order. -/
def runEvents (s : CoordState) (evs : List CoordEvent) : CoordState :=
  evs.foldl CoordState.step s

/-- The outcome dictated by the first effective event of a sequence: the first
correctly correlated response, cancellation, or timeout, whichever comes
first. -/
def firstOutcome (cid : String) : List CoordEvent → Option ConfirmationOutcome
  | [] => none
  | CoordEvent.response cid2 ans :: rest =>
      if cid2 == cid then some (ConfirmationOutcome.success ans)
      else firstOutcome cid rest
  | CoordEvent.cancel :: _ => some ConfirmationOutcome.cancelled
  | CoordEvent.timeout :: _ => some ConfirmationOutcome.timedOut

/-- One registered bus subscription: a message kind and a handler identifier. -/
structure BusSubscription where
  kind : String
  handlerId : Nat
  deriving DecidableEq, Repr

/-- Modelled from the spec: the correlation bus keeps, per message kind, the
subscribers in registration order (message-bus.ts is not in the source tree;
only callers and tests are). One flat list in registration order represents
the per-kind lists. -/
structure MessageBusState where
  subscriptions : List BusSubscription
  deriving DecidableEq, Repr

/-- The handler identifiers currently subscribed to a kind, in registration
order. -/
def MessageBusState.subscribersOf (st : MessageBusState) (kind : String) :
    List Nat :=
  (st.subscriptions.filter (fun s => s.kind == kind)).map (fun s => s.handlerId)

/-- Modelled from the spec: subscribe appends a subscription at the end of the
registration order. -/
def MessageBusState.subscribe (st : MessageBusState) (kind : String)
    (handlerId : Nat) : MessageBusState :=
  { subscriptions := st.subscriptions ++ [{ kind := kind, handlerId := handlerId }] }

/-- Modelled from the spec: unsubscribe removes the matching subscription and
is an idempotent no-op when it is absent. -/
def MessageBusState.unsubscribe (st : MessageBusState) (kind : String)
    (handlerId : Nat) : MessageBusState :=
  { subscriptions :=
      st.subscriptions.filter
        (fun s => !(s.kind == kind && s.handlerId == handlerId)) }

/-- Modelled from the spec: publish snapshots the subscriber list of the
message kind at publish time, then invokes every subscriber of the snapshot in
registration order, threading each handler effect (which may itself subscribe
or unsubscribe) through the bus state, awaiting each handler before the next;
it returns the final bus state together with the delivery log. -/
def MessageBusState.publish (act : Nat → MessageBusState → MessageBusState)
    (st : MessageBusState) (kind : String) : MessageBusState × List Nat :=
  (st.subscribersOf kind).foldl
    (fun acc h => (act h acc.1, acc.2 ++ [h])) (st, [])

/-- The part of the Config object the approval-mode flows read and write: the
current approval mode, whether YOLO mode is disabled by the settings, and a
count of the observer callbacks fired so far by successful mode changes. -/
structure Config where
  approvalMode : ApprovalMode
  yoloDisabled : Bool
  observerCalls : Nat
  deriving DecidableEq, Repr

/-- Error text of the modelled setter validation failure. -/
def yoloSetterError : String :=
  "Cannot enable YOLO mode: it is disabled by configuration."

/-- Modelled from the spec: Config.setApprovalMode (config.ts is not in the
source tree) validates the transition. Setting YOLO while YOLO is disabled by
configuration fails and leaves the mode unchanged, the error surfaced to the
caller; a successful transition sets the mode and fires the observer callbacks
before returning. -/
def Config.setApprovalMode (c : Config) (m : ApprovalMode) :
    Except String Config :=
  if m = ApprovalMode.YOLO ∧ c.yoloDisabled = true then
    Except.error yoloSetterError
  else
    Except.ok { c with approvalMode := m, observerCalls := c.observerCalls + 1 }

/-- Key inputs the useAutoAcceptIndicator keypress handler distinguishes:
ctrl+y (toggle YOLO), the plan-mode cycle key, anything else. -/
inductive KeyInput where
  | ctrlY
  | togglePlanMode
  | otherKey
  deriving DecidableEq, Repr

/-- A history item the hook surfaces through addItem. -/
structure MessageItem where
  msgType : String
  text : String
  deriving DecidableEq, Repr

/-- The observable effects of one keypress handled by useAutoAcceptIndicator:
the resulting config, the indicator update if any, the onApprovalModeChange
calls, the setApprovalMode targets attempted, and the addItem messages. -/
structure KeypressResult where
  config : Config
  indicator : Option ApprovalMode
  notified : List ApprovalMode
  setterTargets : List ApprovalMode
  messages : List MessageItem
  deriving DecidableEq, Repr

/-- The cycle of useAutoAcceptIndicator.ts: DEFAULT to AUTO_EDIT, AUTO_EDIT to
PLAN_MODE, PLAN_MODE to DEFAULT, and the fallback branch sending YOLO or any
other state to DEFAULT. -/
def cycleNextMode : ApprovalMode → ApprovalMode
  | ApprovalMode.DEFAULT => ApprovalMode.AUTO_EDIT
  | ApprovalMode.AUTO_EDIT => ApprovalMode.PLAN_MODE
  | ApprovalMode.PLAN_MODE => ApprovalMode.DEFAULT
  | ApprovalMode.YOLO => ApprovalMode.DEFAULT

/-- Warning text of useAutoAcceptIndicator.ts for a blocked YOLO entry. -/
def yoloDisabledWarning : String :=
  "You cannot enter YOLO mode since it is disabled in your settings."

/-- The shared tail of the keypress handler of useAutoAcceptIndicator.ts: call
config.setApprovalMode with the chosen next mode; on success update the
indicator and notify onApprovalModeChange once; on a thrown validation error
keep the config and surface the error message through addItem. -/
def applyModeChange (c : Config) (next : ApprovalMode) : KeypressResult :=
  match c.setApprovalMode next with
  | Except.ok c2 =>
      { config := c2, indicator := some next, notified := [next],
        setterTargets := [next], messages := [] }
  | Except.error msg =>
      { config := c, indicator := none, notified := [],
        setterTargets := [next], messages := [{ msgType := "info", text := msg }] }

/-- The keypress handler of useAutoAcceptIndicator.ts. On ctrl+y with YOLO
disabled and the mode not already YOLO, it adds the warning and returns
without touching the mode; otherwise ctrl+y toggles between YOLO and DEFAULT.
The plan-mode cycle key advances the mode through cycleNextMode. Any other key
leaves everything unchanged. -/
def handleKeypress (c : Config) (key : KeyInput) : KeypressResult :=
  match key with
  | KeyInput.ctrlY =>
      if c.yoloDisabled = true ∧ c.approvalMode ≠ ApprovalMode.YOLO then
        { config := c, indicator := none, notified := [], setterTargets := [],
          messages := [{ msgType := "warning", text := yoloDisabledWarning }] }
      else
        applyModeChange c
          (if c.approvalMode = ApprovalMode.YOLO then ApprovalMode.DEFAULT
           else ApprovalMode.YOLO)
  | KeyInput.togglePlanMode => applyModeChange c (cycleNextMode c.approvalMode)
  | KeyInput.otherKey =>
      { config := c, indicator := none, notified := [], setterTargets := [],
        messages := [] }

/-- Result of a tool execution: the content for the model and the display
string. -/
structure ToolResult where
  llmContent : String
  returnDisplay : String
  deriving DecidableEq, Repr

/-- Observable outcome of one EnterPlanModeToolInvocation.execute call: the
resulting config, the tool result, and how many times the approval-mode setter
was invoked during the call. -/
structure ExecuteOutcome where
  config : Config
  result : ToolResult
  setterInvocations : Nat
  deriving DecidableEq, Repr

/-- EnterPlanModeToolInvocation.execute of enter-plan-mode.ts: when the
approval mode is already PLAN_MODE, return the Already in Plan Mode result
without invoking the setter; otherwise call config.setApprovalMode with
PLAN_MODE and report entry. The source lets a setter failure propagate; that
branch is unreachable here because the modelled setter only rejects YOLO. -/
def enterPlanModeExecute (c : Config) (rationale : String) : ExecuteOutcome :=
  if c.approvalMode = ApprovalMode.PLAN_MODE then
    { config := c
      result := { llmContent := "Already in Plan Mode."
                  returnDisplay := "Already in Plan Mode." }
      setterInvocations := 0 }
  else
    match c.setApprovalMode ApprovalMode.PLAN_MODE with
    | Except.ok c2 =>
        { config := c2
          result := { llmContent := "Entered Plan Mode. Rationale: " ++ rationale
                      returnDisplay := "Entered Plan Mode." }
          setterInvocations := 1 }
    | Except.error msg =>
        { config := c
          result := { llmContent := msg, returnDisplay := msg }
          setterInvocations := 1 }

/-! Helper lemmas about the policy-engine selection. -/

theorem beats_irrefl (c : Nat × PolicyRule) : ¬ beats c c := by
  unfold beats
  omega

theorem beats_asymm {c b : Nat × PolicyRule} (h : beats c b) : ¬ beats b c := by
  unfold beats at h ⊢
  omega

theorem bestMatchFrom_no_match (mode : ApprovalMode) (inv : ToolInvocationRequest)
    (best : Option (Nat × PolicyRule)) (cands : List (Nat × PolicyRule))
    (h : ∀ c ∈ cands, candMatches mode inv c = false) :
    bestMatchFrom mode inv best cands = best := by
  induction cands generalizing best with
  | nil => rfl
  | cons c rest ih =>
      have hc := h c (List.mem_cons_self c rest)
      simp only [bestMatchFrom, hc, Bool.false_eq_true, if_false]
      exact ih best fun d hd => h d (List.mem_cons_of_mem c hd)

theorem bestMatchFrom_keeps (mode : ApprovalMode) (inv : ToolInvocationRequest)
    (b : Nat × PolicyRule) (cands : List (Nat × PolicyRule))
    (h : ∀ c ∈ cands, candMatches mode inv c = true → c = b ∨ beats b c) :
    bestMatchFrom mode inv (some b) cands = some b := by
  induction cands with
  | nil => rfl
  | cons c rest ih =>
      by_cases hc : candMatches mode inv c = true
      · have hcb := h c (List.mem_cons_self c rest) hc
        have hnot : ¬ beats c b := by
          rcases hcb with rfl | hb
          · exact beats_irrefl c
          · exact beats_asymm hb
        simp only [bestMatchFrom, hc, if_true, pickBetter]
        rw [if_neg hnot]
        exact ih fun d hd hm => h d (List.mem_cons_of_mem c hd) hm
      · simp only [bestMatchFrom]
        rw [if_neg hc]
        exact ih fun d hd hm => h d (List.mem_cons_of_mem c hd) hm

theorem bestMatchFrom_dominant (mode : ApprovalMode) (inv : ToolInvocationRequest)
    (c1 : Nat × PolicyRule) :
    ∀ (cands : List (Nat × PolicyRule)) (best : Option (Nat × PolicyRule)),
      c1 ∈ cands → candMatches mode inv c1 = true →
      (∀ c ∈ cands, candMatches mode inv c = true → c = c1 ∨ beats c1 c) →
      (best = none ∨ ∃ b, best = some b ∧ beats c1 b) →
      bestMatchFrom mode inv best cands = some c1 := by
  intro cands
  induction cands with
  | nil =>
      intro best hmem hm hdom hbest
      cases hmem
  | cons c rest ih =>
      intro best hmem hm hdom hbest
      by_cases hc : candMatches mode inv c = true
      · rcases hdom c (List.mem_cons_self c rest) hc with rfl | hbeats
        · have hpick : pickBetter best c = some c := by
            rcases hbest with rfl | ⟨b, rfl, hb⟩
            · rfl
            · simp only [pickBetter]
              rw [if_pos hb]
          simp only [bestMatchFrom, hc, if_true, hpick]
          exact bestMatchFrom_keeps mode inv c rest
            (fun d hd hm2 => hdom d (List.mem_cons_of_mem c hd) hm2)
        · have hne : c ≠ c1 := by
            intro h
            subst h
            exact beats_irrefl c hbeats
          have hmem2 : c1 ∈ rest := by
            rcases List.mem_cons.mp hmem with h | h
            · exact absurd h.symm hne
            · exact h
          have hbest2 : pickBetter best c = none ∨
              ∃ b, pickBetter best c = some b ∧ beats c1 b := by
            rcases hbest with rfl | ⟨b, rfl, hb⟩
            · right
              exact ⟨c, rfl, hbeats⟩
            · simp only [pickBetter]
              by_cases hcb : beats c b
              · rw [if_pos hcb]
                right
                exact ⟨c, rfl, hbeats⟩
              · rw [if_neg hcb]
                right
                exact ⟨b, rfl, hb⟩
          simp only [bestMatchFrom, hc, if_true]
          exact ih (pickBetter best c) hmem2 hm
            (fun d hd hm2 => hdom d (List.mem_cons_of_mem c hd) hm2) hbest2
      · have hne : c ≠ c1 := fun h => hc (h ▸ hm)
        have hmem2 : c1 ∈ rest := by
          rcases List.mem_cons.mp hmem with h | h
          · exact absurd h.symm hne
          · exact h
        simp only [bestMatchFrom]
        rw [if_neg hc]
        exact ih best hmem2 hm
          (fun d hd hm2 => hdom d (List.mem_cons_of_mem c hd) hm2) hbest

theorem mem_enumRulesFrom {c : Nat × PolicyRule} :
    ∀ (i : Nat) (l : List PolicyRule), c ∈ enumRulesFrom i l → c.2 ∈ l := by
  intro i l
  induction l generalizing i with
  | nil =>
      intro h
      cases h
  | cons r rest ih =>
      intro h
      rcases List.mem_cons.mp h with h | h
      · subst h
        exact List.mem_cons_self _ _
      · exact List.mem_cons_of_mem _ (ih (i + 1) h)

/-- C1: under PLAN_MODE, with the built-in rule set and the ASK_USER engine
default, the policy engine denies every invocation of a mutating tool (write,
edit, shell, persistent memory) and allows every invocation of a read-only
tool and of the single mode-exit tool, regardless of the arguments. -/
theorem planMode_policy (inv : ToolInvocationRequest) :
    (inv.toolName ∈ mutatingToolNames →
      PolicyEngine.check builtinRules PolicyDecision.ASK_USER ApprovalMode.PLAN_MODE inv
        = PolicyDecision.DENY) ∧
    ((inv.toolName ∈ readOnlyToolNames ∨ inv.toolName = "exit_plan_mode") →
      PolicyEngine.check builtinRules PolicyDecision.ASK_USER ApprovalMode.PLAN_MODE inv
        = PolicyDecision.ALLOW) := by
  obtain ⟨name, args⟩ := inv
  constructor
  · intro h
    simp only [mutatingToolNames, List.mem_cons, List.not_mem_nil, or_false] at h
    rcases h with rfl | rfl | rfl | rfl <;> rfl
  · intro h
    rcases h with h | rfl
    · simp only [readOnlyToolNames, List.mem_cons, List.not_mem_nil, or_false] at h
      rcases h with rfl | rfl | rfl | rfl | rfl | rfl | rfl <;> rfl
    · rfl

/-- Witness for C1: concrete evaluations of the engine under PLAN_MODE, with
nonempty arguments on the denied write. -/
theorem planMode_policy_witness :
    PolicyEngine.check builtinRules PolicyDecision.ASK_USER ApprovalMode.PLAN_MODE
      { toolName := "write_file", args := [("file_path", "a.txt")] }
      = PolicyDecision.DENY ∧
    PolicyEngine.check builtinRules PolicyDecision.ASK_USER ApprovalMode.PLAN_MODE
      { toolName := "read_file", args := [] } = PolicyDecision.ALLOW ∧
    PolicyEngine.check builtinRules PolicyDecision.ASK_USER ApprovalMode.PLAN_MODE
      { toolName := "exit_plan_mode", args := [] } = PolicyDecision.ALLOW :=
  ⟨(planMode_policy { toolName := "write_file", args := [("file_path", "a.txt")] }).1
      (by simp [mutatingToolNames]),
   (planMode_policy { toolName := "read_file", args := [] }).2
      (Or.inl (by simp [readOnlyToolNames])),
   (planMode_policy { toolName := "exit_plan_mode", args := [] }).2 (Or.inr rfl)⟩

/-- C3: the policy-engine decision function is total: for every rule set,
default, mode and well-formed invocation it returns exactly one of ALLOW, DENY
or ASK_USER (it is a pure function, so it cannot throw), and when no loaded
rule is both applicable in the mode and matching the invocation it returns the
configured default decision. -/
theorem check_total_and_default (rules : List PolicyRule) (dflt : PolicyDecision)
    (mode : ApprovalMode) (inv : ToolInvocationRequest) :
    (PolicyEngine.check rules dflt mode inv = PolicyDecision.ALLOW ∨
     PolicyEngine.check rules dflt mode inv = PolicyDecision.DENY ∨
     PolicyEngine.check rules dflt mode inv = PolicyDecision.ASK_USER) ∧
    ((∀ r ∈ rules, ¬(ruleApplicable r mode = true ∧ ruleMatches r inv = true)) →
      PolicyEngine.check rules dflt mode inv = dflt) := by
  constructor
  · cases h : PolicyEngine.check rules dflt mode inv
    · left
      rfl
    · right
      left
      rfl
    · right
      right
      rfl
  · intro h
    have hnone : ∀ c ∈ enumRulesFrom 0 rules, candMatches mode inv c = false := by
      intro c hc
      have hr := h c.2 (mem_enumRulesFrom 0 rules hc)
      unfold candMatches
      cases ha : ruleApplicable c.2 mode
      · rfl
      · cases hm : ruleMatches c.2 inv
        · rfl
        · exact absurd ⟨ha, hm⟩ hr
    unfold PolicyEngine.check bestMatch
    rw [bestMatchFrom_no_match mode inv none (enumRulesFrom 0 rules) hnone]

/-- Witness for C3: on a rule set where nothing matches, the engine returns
the configured default. -/
theorem check_total_and_default_witness :
    PolicyEngine.check [] PolicyDecision.ASK_USER ApprovalMode.DEFAULT
      { toolName := "write_file", args := [] } = PolicyDecision.ASK_USER :=
  (check_total_and_default [] PolicyDecision.ASK_USER ApprovalMode.DEFAULT
      { toolName := "write_file", args := [] }).2 (by intro r hr; cases hr)

/-- C8: for every rule set and every invocation matched by exactly two
applicable rules, the engine returns the decision of the rule of higher
precedence: higher priority wins, and on equal priority the later-loaded rule
wins, on every evaluation. -/
theorem rule_precedence_deterministic (rules : List PolicyRule)
    (dflt : PolicyDecision) (mode : ApprovalMode) (inv : ToolInvocationRequest)
    (c1 c2 : Nat × PolicyRule)
    (h1 : c1 ∈ enumRulesFrom 0 rules) (h2 : c2 ∈ enumRulesFrom 0 rules)
    (hm1 : candMatches mode inv c1 = true) (hm2 : candMatches mode inv c2 = true)
    (honly : ∀ c ∈ enumRulesFrom 0 rules,
      candMatches mode inv c = true → c = c1 ∨ c = c2)
    (hprec : beats c1 c2) :
    PolicyEngine.check rules dflt mode inv = c1.2.decision := by
  have hdom : ∀ c ∈ enumRulesFrom 0 rules,
      candMatches mode inv c = true → c = c1 ∨ beats c1 c := by
    intro c hc hm
    rcases honly c hc hm with rfl | rfl
    · left
      rfl
    · right
      exact hprec
  unfold PolicyEngine.check bestMatch
  rw [bestMatchFrom_dominant mode inv c1 (enumRulesFrom 0 rules) none h1 hm1 hdom
    (Or.inl rfl)]

/-- Witness for C8: a two-rule set in which the later-declared, higher-priority
plan-mode deny rule overrides the earlier allow rule for the same tool. -/
theorem rule_precedence_deterministic_witness :
    PolicyEngine.check [allowRule "write_file", planDenyRule "write_file"]
      PolicyDecision.ASK_USER ApprovalMode.PLAN_MODE
      { toolName := "write_file", args := [] } = PolicyDecision.DENY :=
  rule_precedence_deterministic
    [allowRule "write_file", planDenyRule "write_file"]
    PolicyDecision.ASK_USER ApprovalMode.PLAN_MODE
    { toolName := "write_file", args := [] }
    (1, planDenyRule "write_file") (0, allowRule "write_file")
    (by simp [enumRulesFrom]) (by simp [enumRulesFrom]) rfl rfl
    (by
      intro c hc hm
      simp only [enumRulesFrom, List.mem_cons, List.not_mem_nil, or_false] at hc
      rcases hc with rfl | rfl
      · right
        rfl
      · left
        rfl)
    (by
      unfold beats
      left
      decide)

/-! Helper lemmas about the confirmation coordinator. -/

theorem CoordState.step_resolved {s : CoordState} {o : ConfirmationOutcome}
    (h : s.outcome = some o) (e : CoordEvent) : s.step e = s := by
  unfold CoordState.step
  rw [h]

theorem runEvents_resolved {s : CoordState} {o : ConfirmationOutcome}
    (h : s.outcome = some o) (evs : List CoordEvent) : runEvents s evs = s := by
  induction evs with
  | nil => rfl
  | cons e rest ih =>
      show runEvents (s.step e) rest = s
      rw [CoordState.step_resolved h e]
      exact ih

theorem runEvents_outcome (cid : String) :
    ∀ (evs : List CoordEvent) (s : CoordState),
      s.requestId = cid → s.outcome = none → s.subscriberRegistered = true →
      (runEvents s evs).outcome = firstOutcome cid evs := by
  intro evs
  induction evs with
  | nil =>
      intro s hid ho hs
      simpa [runEvents, firstOutcome] using ho
  | cons e rest ih =>
      intro s hid ho hs
      show (runEvents (s.step e) rest).outcome = firstOutcome cid (e :: rest)
      cases e with
      | response cid2 ans =>
          by_cases hcid : cid2 = cid
          · have hstep : s.step (CoordEvent.response cid2 ans)
                = s.resolve (ConfirmationOutcome.success ans) := by
              unfold CoordState.step
              rw [ho]
              simp [hs, hid, hcid]
            rw [hstep,
              runEvents_resolved (o := ConfirmationOutcome.success ans) rfl rest]
            simp [CoordState.resolve, firstOutcome, hcid]
          · have hstep : s.step (CoordEvent.response cid2 ans) = s := by
              unfold CoordState.step
              rw [ho]
              simp [hid, hcid]
            rw [hstep,
              show firstOutcome cid (CoordEvent.response cid2 ans :: rest)
                  = firstOutcome cid rest by simp [firstOutcome, hcid]]
            exact ih s hid ho hs
      | cancel =>
          have hstep : s.step CoordEvent.cancel
              = s.resolve ConfirmationOutcome.cancelled := by
            unfold CoordState.step
            rw [ho]
          rw [hstep,
            runEvents_resolved (o := ConfirmationOutcome.cancelled) rfl rest]
          rfl
      | timeout =>
          have hstep : s.step CoordEvent.timeout
              = s.resolve ConfirmationOutcome.timedOut := by
            unfold CoordState.step
            rw [ho]
          rw [hstep,
            runEvents_resolved (o := ConfirmationOutcome.timedOut) rfl rest]
          rfl

/-- C2: a coordinator instance resolves exactly once: over any sequence of
racing events (matching responses, cancellation, timeout), the resolved
outcome is the one dictated by the first effective event, and once the outcome
is resolved every later event leaves the coordinator state unchanged. -/
theorem coordinator_resolves_once (requestKind cid : String)
    (evs : List CoordEvent) :
    (runEvents (startCoordination requestKind cid) evs).outcome
      = firstOutcome cid evs ∧
    (∀ e : CoordEvent,
      ((runEvents (startCoordination requestKind cid) evs).outcome).isSome = true →
      runEvents (startCoordination requestKind cid) (evs ++ [e])
        = runEvents (startCoordination requestKind cid) evs) := by
  constructor
  · exact runEvents_outcome cid evs (startCoordination requestKind cid) rfl rfl rfl
  · intro e hx
    obtain ⟨o, ho⟩ := Option.isSome_iff_exists.mp hx
    show List.foldl CoordState.step (startCoordination requestKind cid) (evs ++ [e])
        = runEvents (startCoordination requestKind cid) evs
    rw [List.foldl_append]
    exact CoordState.step_resolved ho e

/-- Witness for C2: a matching response followed by a racing cancellation and
timeout resolves success from the response, and the late events are no-ops. -/
theorem coordinator_resolves_once_witness :
    runEvents (startCoordination "ask_user_request" "id-1")
        [CoordEvent.response "id-1" [("0", "Yes")], CoordEvent.cancel,
         CoordEvent.timeout]
      = runEvents (startCoordination "ask_user_request" "id-1")
        [CoordEvent.response "id-1" [("0", "Yes")], CoordEvent.cancel] ∧
    (runEvents (startCoordination "ask_user_request" "id-1")
        [CoordEvent.response "id-1" [("0", "Yes")], CoordEvent.cancel]).outcome
      = some (ConfirmationOutcome.success [("0", "Yes")]) :=
  ⟨(coordinator_resolves_once "ask_user_request" "id-1"
      [CoordEvent.response "id-1" [("0", "Yes")], CoordEvent.cancel]).2
      CoordEvent.timeout (by rfl),
   ((coordinator_resolves_once "ask_user_request" "id-1"
      [CoordEvent.response "id-1" [("0", "Yes")], CoordEvent.cancel]).1).trans
      (by rfl)⟩

/-- C4: a response whose correlation id does not match the request resolves
nothing: it leaves the whole coordinator state unchanged; and a response
arriving after resolution, matching or not, is equally a no-op. -/
theorem mismatched_response_ignored (s : CoordState) (cid2 : String)
    (ans : List (String × String)) :
    (cid2 ≠ s.requestId → s.step (CoordEvent.response cid2 ans) = s) ∧
    (s.outcome.isSome = true → s.step (CoordEvent.response cid2 ans) = s) := by
  constructor
  · intro h
    unfold CoordState.step
    cases ho : s.outcome
    · simp [h]
    · rfl
  · intro h
    obtain ⟨o, ho⟩ := Option.isSome_iff_exists.mp h
    exact CoordState.step_resolved ho _

/-- Witness for C4: a pending coordinator for id-1 ignores a response
correlated to id-2. -/
theorem mismatched_response_ignored_witness :
    (startCoordination "ask_user_request" "id-1").step
        (CoordEvent.response "id-2" [("0", "No")])
      = startCoordination "ask_user_request" "id-1" :=
  (mismatched_response_ignored (startCoordination "ask_user_request" "id-1")
    "id-2" [("0", "No")]).1 (by decide)

/-- C5: firing the cancellation signal on a pending coordinator resolves it
with the cancelled outcome, unregisters its bus subscriber, publishes nothing
on the bus (the publication log is unchanged), and a subsequent stale response
even with the matching correlation id is a no-op. -/
theorem cancellation_resolves_cleanly (s : CoordState) (h : s.outcome = none) :
    ((s.step CoordEvent.cancel).outcome = some ConfirmationOutcome.cancelled) ∧
    ((s.step CoordEvent.cancel).subscriberRegistered = false) ∧
    ((s.step CoordEvent.cancel).publishedLog = s.publishedLog) ∧
    (∀ ans, (s.step CoordEvent.cancel).step (CoordEvent.response s.requestId ans)
      = s.step CoordEvent.cancel) := by
  have hstep : s.step CoordEvent.cancel
      = s.resolve ConfirmationOutcome.cancelled := by
    unfold CoordState.step
    rw [h]
  refine ⟨?_, ?_, ?_, ?_⟩
  · rw [hstep]
    rfl
  · rw [hstep]
    rfl
  · rw [hstep]
    rfl
  · intro ans
    rw [hstep]
    exact CoordState.step_resolved rfl _

/-- Witness for C5: cancelling the freshly started coordinator resolves
cancelled and leaves the single published request as the whole bus output. -/
theorem cancellation_resolves_cleanly_witness :
    ((startCoordination "ask_user_request" "id-1").step CoordEvent.cancel).outcome
      = some ConfirmationOutcome.cancelled ∧
    ((startCoordination "ask_user_request" "id-1").step CoordEvent.cancel).publishedLog
      = [{ kind := "ask_user_request", correlationId := "id-1" }] :=
  ⟨(cancellation_resolves_cleanly (startCoordination "ask_user_request" "id-1") rfl).1,
   ((cancellation_resolves_cleanly (startCoordination "ask_user_request" "id-1")
      rfl).2.2.1).trans rfl⟩

/-! Helper lemma about bus delivery. -/

theorem foldl_deliver_log (act : Nat → MessageBusState → MessageBusState) :
    ∀ (l : List Nat) (st : MessageBusState) (acc : List Nat),
      (l.foldl (fun p h => (act h p.1, p.2 ++ [h])) (st, acc)).2 = acc ++ l := by
  intro l
  induction l with
  | nil =>
      intro st acc
      simp
  | cons h rest ih =>
      intro st acc
      show (rest.foldl _ (act h st, acc ++ [h])).2 = acc ++ h :: rest
      rw [ih (act h st) (acc ++ [h])]
      simp

/-- C9: publish delivers to exactly the subscribers of the message kind
registered at publish time, in registration order, each exactly once, for
every handler behavior - including handlers that unsubscribe themselves or
others mid-delivery - because the subscriber list is snapshotted at publish
time; the synchronous fold awaits each handler before the next, so all handler
completions precede the completion of publish. -/
theorem publish_delivers_snapshot (act : Nat → MessageBusState → MessageBusState)
    (st : MessageBusState) (kind : String) :
    (MessageBusState.publish act st kind).2 = st.subscribersOf kind := by
  unfold MessageBusState.publish
  rw [foldl_deliver_log act (st.subscribersOf kind) st []]
  simp

/-- C6: from DEFAULT, each cycle keypress advances the approval mode
DEFAULT to AUTO_EDIT to PLAN_MODE and back to DEFAULT, so three cycle actions
return the mode to DEFAULT; each successful transition calls the setter and
notifies the observer exactly once (the observer count increments by one and
the notified list is a singleton), and the cycle never targets YOLO. -/
theorem mode_cycle_roundtrip (yd : Bool) (oc : Nat) :
    (handleKeypress ⟨ApprovalMode.DEFAULT, yd, oc⟩ KeyInput.togglePlanMode).config
      = ⟨ApprovalMode.AUTO_EDIT, yd, oc + 1⟩ ∧
    (handleKeypress ⟨ApprovalMode.DEFAULT, yd, oc⟩ KeyInput.togglePlanMode).notified
      = [ApprovalMode.AUTO_EDIT] ∧
    (handleKeypress ⟨ApprovalMode.AUTO_EDIT, yd, oc + 1⟩ KeyInput.togglePlanMode).config
      = ⟨ApprovalMode.PLAN_MODE, yd, oc + 2⟩ ∧
    (handleKeypress ⟨ApprovalMode.AUTO_EDIT, yd, oc + 1⟩ KeyInput.togglePlanMode).notified
      = [ApprovalMode.PLAN_MODE] ∧
    (handleKeypress ⟨ApprovalMode.PLAN_MODE, yd, oc + 2⟩ KeyInput.togglePlanMode).config
      = ⟨ApprovalMode.DEFAULT, yd, oc + 3⟩ ∧
    (handleKeypress ⟨ApprovalMode.PLAN_MODE, yd, oc + 2⟩ KeyInput.togglePlanMode).notified
      = [ApprovalMode.DEFAULT] ∧
    (∀ m : ApprovalMode, cycleNextMode m ≠ ApprovalMode.YOLO) := by
  refine ⟨?_, ?_, ?_, ?_, ?_, ?_, ?_⟩
  · simp [handleKeypress, applyModeChange, Config.setApprovalMode, cycleNextMode]
  · simp [handleKeypress, applyModeChange, Config.setApprovalMode, cycleNextMode]
  · simp [handleKeypress, applyModeChange, Config.setApprovalMode, cycleNextMode]
  · simp [handleKeypress, applyModeChange, Config.setApprovalMode, cycleNextMode]
  · simp [handleKeypress, applyModeChange, Config.setApprovalMode, cycleNextMode]
  · simp [handleKeypress, applyModeChange, Config.setApprovalMode, cycleNextMode]
  · intro m
    cases m <;> simp [cycleNextMode]

/-- Witness for C6: the first cycle step from DEFAULT at a concrete config,
and the cycle target from PLAN_MODE is not YOLO. -/
theorem mode_cycle_roundtrip_witness :
    (handleKeypress ⟨ApprovalMode.DEFAULT, true, 0⟩ KeyInput.togglePlanMode).config
      = ⟨ApprovalMode.AUTO_EDIT, true, 1⟩ ∧
    cycleNextMode ApprovalMode.PLAN_MODE ≠ ApprovalMode.YOLO :=
  ⟨(mode_cycle_roundtrip true 0).1,
   (mode_cycle_roundtrip true 0).2.2.2.2.2.2 ApprovalMode.PLAN_MODE⟩

/-- C7: when YOLO is disabled by configuration and the mode is not YOLO, the
ctrl+y attempt to enter YOLO fails validation: the keypress handler leaves the
config unchanged, never calls the setter, fires no observer notification, and
surfaces the warning; and the modelled setter itself rejects YOLO with an
error surfaced to the caller, leaving the mode unchanged. -/
theorem yolo_disabled_blocked (c : Config) (h1 : c.yoloDisabled = true)
    (h2 : c.approvalMode ≠ ApprovalMode.YOLO) :
    ((handleKeypress c KeyInput.ctrlY).config = c) ∧
    ((handleKeypress c KeyInput.ctrlY).setterTargets = []) ∧
    ((handleKeypress c KeyInput.ctrlY).notified = []) ∧
    ((handleKeypress c KeyInput.ctrlY).messages
      = [{ msgType := "warning", text := yoloDisabledWarning }]) ∧
    (Config.setApprovalMode c ApprovalMode.YOLO = Except.error yoloSetterError) := by
  have hkey : handleKeypress c KeyInput.ctrlY
      = { config := c, indicator := none, notified := [], setterTargets := [],
          messages := [{ msgType := "warning", text := yoloDisabledWarning }] } := by
    unfold handleKeypress
    rw [if_pos ⟨h1, h2⟩]
  refine ⟨?_, ?_, ?_, ?_, ?_⟩
  · rw [hkey]
  · rw [hkey]
  · rw [hkey]
  · rw [hkey]
  · unfold Config.setApprovalMode
    rw [if_pos ⟨rfl, h1⟩]

/-- Witness for C7: a concrete DEFAULT-mode config with YOLO disabled. -/
theorem yolo_disabled_blocked_witness :
    (handleKeypress ⟨ApprovalMode.DEFAULT, true, 0⟩ KeyInput.ctrlY).config
      = ⟨ApprovalMode.DEFAULT, true, 0⟩ ∧
    Config.setApprovalMode ⟨ApprovalMode.DEFAULT, true, 0⟩ ApprovalMode.YOLO
      = Except.error yoloSetterError :=
  ⟨(yolo_disabled_blocked ⟨ApprovalMode.DEFAULT, true, 0⟩ rfl (by decide)).1,
   (yolo_disabled_blocked ⟨ApprovalMode.DEFAULT, true, 0⟩ rfl (by decide)).2.2.2.2⟩

/-- C10: executing enter_plan_mode while already in PLAN_MODE returns the
Already in Plan Mode result without invoking the setter (so no observer
callback fires and the config is untouched); since one execution always leaves
the mode at PLAN_MODE, a second consecutive execution is exactly that no-op,
so two executions leave the same state as one. -/
theorem enter_plan_mode_idempotent (c : Config) (rationale : String) :
    (c.approvalMode = ApprovalMode.PLAN_MODE →
      enterPlanModeExecute c rationale
        = { config := c,
            result := { llmContent := "Already in Plan Mode.",
                        returnDisplay := "Already in Plan Mode." },
            setterInvocations := 0 }) ∧
    ((enterPlanModeExecute c rationale).config.approvalMode
      = ApprovalMode.PLAN_MODE) ∧
    (enterPlanModeExecute (enterPlanModeExecute c rationale).config rationale
      = { config := (enterPlanModeExecute c rationale).config,
          result := { llmContent := "Already in Plan Mode.",
                      returnDisplay := "Already in Plan Mode." },
          setterInvocations := 0 }) := by
  have htotal : ∀ d : Config, d.approvalMode = ApprovalMode.PLAN_MODE →
      enterPlanModeExecute d rationale
        = { config := d,
            result := { llmContent := "Already in Plan Mode.",
                        returnDisplay := "Already in Plan Mode." },
            setterInvocations := 0 } := by
    intro d hd
    unfold enterPlanModeExecute
    rw [if_pos hd]
  have hmode : (enterPlanModeExecute c rationale).config.approvalMode
      = ApprovalMode.PLAN_MODE := by
    unfold enterPlanModeExecute
    by_cases hc : c.approvalMode = ApprovalMode.PLAN_MODE
    · rw [if_pos hc]
      exact hc
    · rw [if_neg hc]
      unfold Config.setApprovalMode
      rw [if_neg (fun hcon => absurd hcon.1 (by decide))]
  exact ⟨htotal c, hmode, htotal _ hmode⟩

/-- Witness for C10: a config already in PLAN_MODE executes to the no-op
result with zero setter invocations. -/
theorem enter_plan_mode_idempotent_witness :
    enterPlanModeExecute ⟨ApprovalMode.PLAN_MODE, false, 0⟩ "plan ready"
      = { config := ⟨ApprovalMode.PLAN_MODE, false, 0⟩,
          result := { llmContent := "Already in Plan Mode.",
                      returnDisplay := "Already in Plan Mode." },
          setterInvocations := 0 } :=
  (enter_plan_mode_idempotent ⟨ApprovalMode.PLAN_MODE, false, 0⟩ "plan ready").1 rfl
